import Mathlib

/-!
Verification development for the runagent-go client SDK.

The definitions below are a shallow embedding of the response/stream
normalization and error-classification engine of the Go source
(`runagent/client.go` and the newest client variant: the stream iterator,
structured-string decoding and the error taxonomy).  Go `interface{}` values
decoded from JSON are modelled by the `Json` inductive; Go maps obtained by
`json.Unmarshal` are modelled by association lists whose keys are unique
(the parser below inserts with last-write-wins on duplicate keys, mirroring
Go map decoding).  JSON numbers are modelled as integers: the Go code decodes
numbers into float64, but no claim under verification involves a non-integer
literal, and floating point is outside the scope of the embedding.
-/

namespace RunAgent

/-- Model of a decoded JSON value (Go `interface{}` after `json.Unmarshal`).
`Json.null` plays the role of the Go `nil` interface value. -/
inductive Json where
  | null : Json
  | bool (b : Bool) : Json
  | num (n : Int) : Json
  | str (s : String) : Json
  | arr (elems : List Json) : Json
  | obj (fields : List (String × Json)) : Json
deriving Repr

/-- First-match lookup in an object field list.  Field lists produced by the
parser have unique keys, so this coincides with Go map indexing. -/
def lookupField (k : String) : List (String × Json) → Option Json
  | [] => none
  | (k', v) :: rest => if k' = k then some v else lookupField k rest

/-! ### A small executable JSON parser

This models `encoding/json.Unmarshal` into `interface{}` for the JSON
fragment the claims exercise: objects, arrays, strings (with the usual
escapes), integer numbers, booleans and null.  Fuel bounds the recursion
depth; `parseJson` supplies more fuel than any input can consume. -/

/-- Skip JSON insignificant whitespace. -/
def skipWs : List Char → List Char
  | [] => []
  | c :: cs => if c = ' ' ∨ c = '\t' ∨ c = '\n' ∨ c = '\r' then skipWs cs else c :: cs

/-- Value of a hexadecimal digit, if any. -/
def hexVal (c : Char) : Option Nat :=
  if '0' ≤ c ∧ c ≤ '9' then some (c.toNat - '0'.toNat)
  else if 'a' ≤ c ∧ c ≤ 'f' then some (c.toNat - 'a'.toNat + 10)
  else if 'A' ≤ c ∧ c ≤ 'F' then some (c.toNat - 'A'.toNat + 10)
  else none

/-- Parse the remainder of a JSON string literal (after the opening quote),
accumulating characters in reverse.  Surrogate pairs are not combined. -/
def parseStringRest : Nat → List Char → List Char → Option (String × List Char)
  | 0, _, _ => none
  | _ + 1, _, [] => none
  | f + 1, acc, c :: rest =>
    if c = '"' then some (String.mk acc.reverse, rest)
    else if c = '\\' then
      match rest with
      | [] => none
      | e :: rest' =>
        if e = '"' then parseStringRest f ('"' :: acc) rest'
        else if e = '\\' then parseStringRest f ('\\' :: acc) rest'
        else if e = '/' then parseStringRest f ('/' :: acc) rest'
        else if e = 'n' then parseStringRest f ('\n' :: acc) rest'
        else if e = 't' then parseStringRest f ('\t' :: acc) rest'
        else if e = 'r' then parseStringRest f ('\r' :: acc) rest'
        else if e = 'b' then parseStringRest f (Char.ofNat 8 :: acc) rest'
        else if e = 'f' then parseStringRest f (Char.ofNat 12 :: acc) rest'
        else if e = 'u' then
          match rest' with
          | h1 :: h2 :: h3 :: h4 :: rest'' =>
            match hexVal h1, hexVal h2, hexVal h3, hexVal h4 with
            | some a, some b, some c', some d =>
              parseStringRest f (Char.ofNat (((a * 16 + b) * 16 + c') * 16 + d) :: acc) rest''
            | _, _, _, _ => none
          | _ => none
        else none
    else parseStringRest f (c :: acc) rest

/-- Split a leading run of decimal digits from the input. -/
def takeDigits : List Char → List Char × List Char
  | [] => ([], [])
  | c :: cs =>
    if c.isDigit then
      let (ds, rest) := takeDigits cs
      (c :: ds, rest)
    else ([], c :: cs)

/-- Numeric value of a digit run. -/
def digitsToNat (ds : List Char) : Nat :=
  ds.foldl (fun acc c => acc * 10 + (c.toNat - '0'.toNat)) 0

/-- Parse a JSON integer literal.  A fractional part or exponent makes the
parse fail: non-integer numbers are outside the embedding (see the module
comment). -/
def parseNumber (cs : List Char) : Option (Json × List Char) :=
  let (neg, cs') : Bool × List Char :=
    match cs with
    | '-' :: rest => (true, rest)
    | _ => (false, cs)
  match takeDigits cs' with
  | ([], _) => none
  | (ds, rest) =>
    let n : Int := if neg then -(digitsToNat ds : Int) else (digitsToNat ds : Int)
    match rest with
    | [] => some (.num n, [])
    | c :: _ => if c = '.' ∨ c = 'e' ∨ c = 'E' then none else some (.num n, rest)

/-- Consume an exact literal run of characters. -/
def dropLit : List Char → List Char → Option (List Char)
  | [], cs => some cs
  | _ :: _, [] => none
  | p :: ps, c :: cs => if p = c then dropLit ps cs else none

/-- Insert an object member parsed earlier than `fs`.  A later duplicate key
wins, mirroring Go map decoding, so the earlier member is dropped when its
key already occurs. -/
def consField (k : String) (v : Json) (fs : List (String × Json)) : List (String × Json) :=
  if fs.any (fun p => p.1 = k) then fs else (k, v) :: fs

mutual

/-- Parse one JSON value. -/
def parseVal : Nat → List Char → Option (Json × List Char)
  | 0, _ => none
  | Nat.succ f, cs =>
    match skipWs cs with
    | [] => none
    | c :: rest =>
      if c = 'n' then
        match dropLit ['u', 'l', 'l'] rest with
        | some rest' => some (.null, rest')
        | none => none
      else if c = 't' then
        match dropLit ['r', 'u', 'e'] rest with
        | some rest' => some (.bool true, rest')
        | none => none
      else if c = 'f' then
        match dropLit ['a', 'l', 's', 'e'] rest with
        | some rest' => some (.bool false, rest')
        | none => none
      else if c = '"' then
        match parseStringRest (rest.length + 1) [] rest with
        | some (s, rest') => some (.str s, rest')
        | none => none
      else if c = '[' then
        match skipWs rest with
        | ']' :: rest' => some (.arr [], rest')
        | cs' =>
          match parseElems f cs' with
          | some (vs, rest') => some (.arr vs, rest')
          | none => none
      else if c = '{' then
        match skipWs rest with
        | '}' :: rest' => some (.obj [], rest')
        | cs' =>
          match parseMembers f cs' with
          | some (fs, rest') => some (.obj fs, rest')
          | none => none
      else parseNumber (c :: rest)

/-- Parse the non-empty element list of a JSON array, including the closing
bracket. -/
def parseElems : Nat → List Char → Option (List Json × List Char)
  | 0, _ => none
  | Nat.succ f, cs =>
    match parseVal f cs with
    | none => none
    | some (v, rest) =>
      match skipWs rest with
      | ',' :: rest' =>
        match parseElems f rest' with
        | some (vs, rest'') => some (v :: vs, rest'')
        | none => none
      | ']' :: rest' => some ([v], rest')
      | _ => none

/-- Parse the non-empty member list of a JSON object, including the closing
brace. -/
def parseMembers : Nat → List Char → Option (List (String × Json) × List Char)
  | 0, _ => none
  | Nat.succ f, cs =>
    match skipWs cs with
    | '"' :: rest =>
      match parseStringRest (rest.length + 1) [] rest with
      | none => none
      | some (k, rest1) =>
        match skipWs rest1 with
        | ':' :: rest2 =>
          match parseVal f rest2 with
          | none => none
          | some (v, rest3) =>
            match skipWs rest3 with
            | ',' :: rest4 =>
              match parseMembers f rest4 with
              | some (fs, rest5) => some (consField k v fs, rest5)
              | none => none
            | '}' :: rest4 => some ([(k, v)], rest4)
            | _ => none
        | _ => none
    | _ => none

end

/-- Model of `json.Unmarshal` into `interface{}`: parse a whole string as one
JSON value, allowing surrounding whitespace only. -/
def parseJson (s : String) : Option Json :=
  match parseVal (s.length + 2) s.data with
  | some (v, rest) => if skipWs rest = [] then some v else none
  | none => none

/-- Embedding of `decodeStructuredString` (stream/decoding helpers of the
newest client variant).  The Go code first tries `json.Unmarshal`; on failure
it quotes the string with `%q` and unmarshals that, which recovers the
original string whenever it parses, and otherwise falls through to returning
the original string — so the failure branch is the identity on `value`. -/
def decodeStructuredString (value : String) : Json :=
  if value = "" then .str value
  else
    match parseJson value with
    | some decoded => decoded
    | none => .str value

/-- Embedding of `decodeStructuredObject`: unwrap a `payload` field, decoding
it one structured-string level when it is a string. -/
def decodeStructuredObject (o : List (String × Json)) : Json :=
  match lookupField "payload" o with
  | some (.str p) => decodeStructuredString p
  | some p => p
  | none => .obj o

/-! ### String helpers mirroring Go `strings` functions -/

/-- Whether `p` is a leading run of `text` (Go `strings.HasPrefix` on char
lists). -/
def listStarts : List Char → List Char → Bool
  | [], _ => true
  | _ :: _, [] => false
  | p :: ps, c :: cs => p = c && listStarts ps cs

/-- Whether `p` occurs as a contiguous run inside `text`. -/
def listHasSub (p : List Char) : List Char → Bool
  | [] => p.isEmpty
  | c :: cs => listStarts p (c :: cs) || listHasSub p cs

/-- Go `strings.Contains s pat`. -/
def strContainsSub (s pat : String) : Bool :=
  listHasSub pat.data s.data

/-- Go `strings.HasSuffix s suf`. -/
def strHasSuffix (s suf : String) : Bool :=
  listStarts suf.data.reverse s.data.reverse

/-- ASCII lowering of one character.  All strings the source lowers (tags,
status values, error messages and codes) are ASCII, so this models Go
`strings.ToLower`/`ToUpper` faithfully on the inputs that matter. -/
def asciiLowerChar (c : Char) : Char :=
  if 'A' ≤ c ∧ c ≤ 'Z' then Char.ofNat (c.toNat + 32) else c

/-- ASCII raising of one character. -/
def asciiUpperChar (c : Char) : Char :=
  if 'a' ≤ c ∧ c ≤ 'z' then Char.ofNat (c.toNat - 32) else c

/-- Go `strings.ToLower` (ASCII). -/
def strToLower (s : String) : String :=
  String.mk (s.data.map asciiLowerChar)

/-- Go `strings.ToUpper` (ASCII). -/
def strToUpper (s : String) : String :=
  String.mk (s.data.map asciiUpperChar)

/-- Whether `unicode.IsSpace` holds on the code points Go
`strings.TrimSpace` strips in practice. -/
def isSpaceChar (c : Char) : Bool :=
  c.toNat = 9 ∨ c.toNat = 10 ∨ c.toNat = 11 ∨ c.toNat = 12 ∨ c.toNat = 13 ∨
    c.toNat = 32 ∨ c.toNat = 133 ∨ c.toNat = 160

/-- Drop leading space characters. -/
def dropLeadingWs : List Char → List Char
  | [] => []
  | c :: cs => if isSpaceChar c then dropLeadingWs cs else c :: cs

/-- Go `strings.TrimSpace`. -/
def strTrim (s : String) : String :=
  String.mk ((dropLeadingWs (dropLeadingWs s.data).reverse).reverse)

/-- Go `strings.EqualFold` restricted to ASCII case folding. -/
def strEqualFold (a b : String) : Bool :=
  strToLower a = strToLower b

/-! ### Error taxonomy (`ErrorType` constants of the newest client variant) -/

def ErrorTypeAuthentication : String := "AUTHENTICATION_ERROR"

def ErrorTypePermission : String := "PERMISSION_ERROR"

def ErrorTypeConnection : String := "CONNECTION_ERROR"

def ErrorTypeValidation : String := "VALIDATION_ERROR"

def ErrorTypeServer : String := "SERVER_ERROR"

def ErrorTypeUnknown : String := "UNKNOWN_ERROR"

/-- Embedding of `apiErrorPayload`: the structured error payload parsed out
of response envelopes and stream frames. -/
structure ApiErrorPayload where
  type : String
  code : String := ""
  message : String := ""
  suggestion : String := ""
  details : Option (List (String × Json)) := none
deriving Repr

/-- Embedding of `RunAgentError` (local, pre-network errors built by
`newError` with its functional options). -/
structure RunAgentError where
  type : String
  code : String := ""
  message : String := ""
  suggestion : String := ""
  details : Option (List (String × Json)) := none
deriving Repr

/-- Embedding of `RunAgentExecutionError` (service-reported errors built by
`newExecutionError`). -/
structure RunAgentExecutionError where
  type : String
  code : String := ""
  message : String := ""
  suggestion : String := ""
  details : Option (List (String × Json)) := none
  httpStatus : Int := 0
deriving Repr

mutual

/-- Models `fmt.Sprintf` with verb `%v` on decoded-JSON values, used only
for message text in the default branch of `parseAPIError` (Go renders maps
with sorted keys; the exact text is not load-bearing for any claim). -/
def goFmtValue : Json → String
  | .null => "<nil>"
  | .bool b => if b then "true" else "false"
  | .num n => toString n
  | .str s => s
  | .arr xs => "[" ++ String.intercalate " " (goFmtList xs) ++ "]"
  | .obj fs => "map[" ++ String.intercalate " " (goFmtFields fs) ++ "]"

def goFmtList : List Json → List String
  | [] => []
  | x :: xs => goFmtValue x :: goFmtList xs

def goFmtFields : List (String × Json) → List String
  | [] => []
  | (k, v) :: fs => (k ++ ":" ++ goFmtValue v) :: goFmtFields fs

end

/-- Embedding of `parseAPIError`: interpret the raw content of an `error`
field.  A JSON `null` yields no payload (the Go `nil` case). -/
def parseAPIError : Json → Option ApiErrorPayload
  | .null => none
  | .str s => some { type := ErrorTypeServer, message := s }
  | .obj val =>
    some {
      type :=
        match lookupField "type" val with
        | some (.str t) => if t = "" then ErrorTypeServer else t
        | _ => ErrorTypeServer
      message :=
        match lookupField "message" val with
        | some (.str m) => m
        | _ => ""
      code :=
        match lookupField "code" val with
        | some (.str c) => c
        | _ => ""
      suggestion :=
        match lookupField "suggestion" val with
        | some (.str s) => s
        | _ => ""
      details :=
        match lookupField "details" val with
        | some (.obj d) => some d
        | _ => none }
  | v => some { type := ErrorTypeServer, message := goFmtValue v }

/-- Embedding of `extractAPIError`: probe an envelope for the explicit
failure indicator — an `error` field with usable content first, then a
`success` boolean. -/
def extractAPIError (envelope : List (String × Json)) : Option ApiErrorPayload :=
  let successCheck : Option ApiErrorPayload :=
    match lookupField "success" envelope with
    | some (.bool true) => none
    | some (.bool false) =>
      some {
        type := ErrorTypeServer
        message :=
          match lookupField "message" envelope with
          | some (.str m) => if m = "" then "agent execution failed" else m
          | _ => "agent execution failed" }
    | _ => none
  match lookupField "error" envelope with
  | some rawErr =>
    match parseAPIError rawErr with
    | some parsed => some parsed
    | none => successCheck
  | none => successCheck

/-- Embedding of `enrichErrorPayload`: add friendly suggestions for common
error shapes; the Go `switch` takes the first matching case only, and a case
whose suggestion is already set leaves the payload unchanged. -/
def enrichErrorPayload (e : ApiErrorPayload) : ApiErrorPayload :=
  let msg := strToLower e.message
  let code := strToUpper e.code
  if strContainsSub msg "unexpected keyword argument" then
    if e.suggestion = "" then
      { e with suggestion := "Check the entrypoint\x27s expected parameter names. If your agent expects \x27message\x27, pass Kw(\"message\", ...)." }
    else e
  else if strContainsSub msg "entrypoint" && strContainsSub msg "not found" then
    if e.suggestion = "" then
      { e with suggestion := "Verify the entrypoint tag and use GetArchitecture(ctx) to list available tags." }
    else e
  else if code = "AUTHENTICATION_ERROR" then
    if e.suggestion = "" then
      { e with suggestion := "Set RUNAGENT_API_KEY or pass Config.APIKey for remote calls." }
    else e
  else if code = "NON_STREAM_ENTRYPOINT" then
    if e.suggestion = "" then
      { e with suggestion := "Use client.Run(...) for non-stream tags." }
    else e
  else if code = "STREAM_ENTRYPOINT" then
    if e.suggestion = "" then
      { e with suggestion := "Use client.RunStream(...) for *_stream tags." }
    else e
  else e

/-- Embedding of `newExecutionError`: default payload for `nil`, enrichment,
and the empty-kind fallback to `SERVER_ERROR`. -/
def newExecutionError (status : Int) (apiErr : Option ApiErrorPayload) : RunAgentExecutionError :=
  let base : ApiErrorPayload :=
    match apiErr with
    | none => { type := ErrorTypeUnknown, message := "agent execution failed" }
    | some e => e
  let e := enrichErrorPayload base
  { type := if e.type = "" then ErrorTypeServer else e.type
    code := e.code
    message := e.message
    suggestion := e.suggestion
    details := e.details
    httpStatus := status }

/-! ### Response normalizer (`parseRunResponse` and helpers) -/

/-- Tail of `unwrapDataField` for object-shaped `data`: plain `data`, then
`content`, then the payload-aware object normalization. -/
def unwrapDataFieldObj (typed : List (String × Json)) : Json :=
  match lookupField "data" typed with
  | some inner => inner
  | none =>
    match lookupField "content" typed with
    | some inner => inner
    | none => decodeStructuredObject typed

/-- Embedding of `unwrapDataField`.  When `data` is a string it is decoded
one structured-string level; when it is an object, `result_data.data` is
probed first (falling through when `result_data` is an object without a
`data` member, as the Go code does). -/
def unwrapDataField : Json → Json
  | .str s => decodeStructuredString s
  | .obj typed =>
    (match lookupField "result_data" typed with
     | some (.obj resultData) =>
       match lookupField "data" resultData with
       | some inner => inner
       | none => unwrapDataFieldObj typed
     | _ => unwrapDataFieldObj typed)
  | other => other

/-- The branches of `parseRunResponse` after the `data` probe: legacy
`payload`, legacy `output_data`, then the whole envelope verbatim. -/
def parseEnvelopeFallback (envelope : List (String × Json)) : Json :=
  match lookupField "payload" envelope with
  | some (.str p) => decodeStructuredString p
  | some p => p
  | none =>
    match lookupField "output_data" envelope with
    | some od => od
    | none => .obj envelope

/-- The body of `parseRunResponse` once the JSON envelope object is in hand.
The Go `result != nil` guard corresponds to the unwrapped value not being
`Json.null`. -/
def parseEnvelope (status : Int) (envelope : List (String × Json)) :
    Except RunAgentExecutionError Json :=
  match extractAPIError envelope with
  | some errPayload => .error (newExecutionError status (some errPayload))
  | none =>
    match lookupField "data" envelope with
    | some data =>
      match unwrapDataField data with
      | .null => .ok (parseEnvelopeFallback envelope)
      | .obj m => .ok (decodeStructuredObject m)
      | result => .ok result
    | none => .ok (parseEnvelopeFallback envelope)

/-- Embedding of `parseRunResponse` (runagent/client.go).  Unmarshalling the
body into a Go map succeeds only for a JSON object or `null` (which leaves a
nil map); any other body is handed to `decodeStructuredString` as a plain
string output. -/
def parseRunResponse (status : Int) (body : String) : Except RunAgentExecutionError Json :=
  match parseJson body with
  | some (.obj envelope) => parseEnvelope status envelope
  | some .null => parseEnvelope status []
  | _ => .ok (decodeStructuredString body)

/-- Embedding of `translateHTTPError` (runagent/client.go): build the
richest available payload from the body, then let the 401/403 and the
at-least-500 status rules overwrite the kind. -/
def translateHTTPError (status : Int) (body : String) : RunAgentExecutionError :=
  let base : ApiErrorPayload :=
    { type := ErrorTypeServer, message := "server returned status " ++ toString status }
  let apiErr : ApiErrorPayload :=
    match parseJson body with
    | some (.obj payload) =>
      match extractAPIError payload with
      | some parsed => enrichErrorPayload parsed
      | none => base
    | _ => base
  let apiErr : ApiErrorPayload :=
    if status = 401 ∨ status = 403 then
      { apiErr with
        type := ErrorTypeAuthentication
        suggestion :=
          if apiErr.suggestion = "" then "Set RUNAGENT_API_KEY or pass Config.APIKey"
          else apiErr.suggestion }
    else if 500 ≤ status then { apiErr with type := ErrorTypeServer }
    else apiErr
  newExecutionError status (some apiErr)

/-! ### Stream normalizer (`StreamIterator` of the newest client variant)

One decoded WebSocket message is a `streamFrame`: `type` and `status` are
strings, while `content`, `data` and `error` are `json.RawMessage` fields,
modelled as the optional JSON value of the field.  The iterator state keeps
the `closed` flag, the messages still buffered on the connection, and a
counter of `conn.Close` invocations (to express that the connection is
closed at most once). -/

/-- Embedding of `streamFrame`. -/
structure StreamFrame where
  type : String := ""
  status : String := ""
  content : Option Json := none
  data : Option Json := none
  error : Option Json := none
deriving Repr

/-- Read a string-typed struct field from a decoded object: absent or JSON
`null` leaves the zero value, a non-string value makes `json.Unmarshal`
fail. -/
def strFieldOf (fields : List (String × Json)) (k : String) : Option String :=
  match lookupField k fields with
  | none => some ""
  | some .null => some ""
  | some (.str s) => some s
  | some _ => none

/-- Models `json.Unmarshal(msg, &frame)`: fails for invalid JSON, a
non-object top level, or a non-string `type`/`status` field. -/
def parseStreamFrame (msg : String) : Option StreamFrame :=
  match parseJson msg with
  | some .null => some {}
  | some (.obj fields) =>
    match strFieldOf fields "type", strFieldOf fields "status" with
    | some t, some st =>
      some { type := t, status := st,
             content := lookupField "content" fields,
             data := lookupField "data" fields,
             error := lookupField "error" fields }
    | _, _ => none
  | _ => none

/-- Embedding of `parseFrameError`.  The raw bytes of an `error` field taken
from a successfully decoded frame are always valid JSON, so the Go
unmarshal-failure branch cannot arise and is not modelled. -/
def parseFrameError (frame : StreamFrame) : Option ApiErrorPayload :=
  match frame.error with
  | none => some { type := ErrorTypeServer, message := "stream failed" }
  | some v => parseAPIError v

/-- Embedding of `formatFriendlyError` on execution errors (the only error
shape reaching the panic paths of the iterator). -/
def formatFriendlyError (e : RunAgentExecutionError) : String :=
  if e.suggestion = "" then
    "RunAgent error: " ++ e.message ++ " (" ++ e.type ++ ")"
  else
    "RunAgent error: " ++ e.message ++ " (" ++ e.type ++ ")\nSuggestion: " ++ e.suggestion

/-- The panic message built by the frame-level error paths of `Next`:
`formatFriendlyError(newExecutionError(0, enrichErrorPayload(parseFrameError(frame))))`. -/
def fatalFromFrame (frame : StreamFrame) : String :=
  formatFriendlyError (newExecutionError 0 ((parseFrameError frame).map enrichErrorPayload))

/-- Embedding of `decodeStreamPayload`.  The Go function also returns an
error, but every branch returns a nil error, so the value alone is
modelled; a missing `content`/`data` yields the Go nil interface
(`Json.null`), and the unmarshal fallback to a raw string cannot arise for
fields of a successfully decoded frame. -/
def decodeStreamPayload (frame : StreamFrame) : Json :=
  let raw : Option Json :=
    match frame.content with
    | some v => some v
    | none => frame.data
  match raw with
  | none => .null
  | some v =>
    match v with
    | .obj m =>
      (match lookupField "content" m with
       | some content => content
       | none => decodeStructuredObject m)
    | .str s =>
      (match decodeStructuredString s with
       | .obj m => decodeStructuredObject m
       | d => d)
    | other => other

/-- Whether `len(frame.Error) > 0 && string(frame.Error) != "null"` holds. -/
def isErrFieldSet (frame : StreamFrame) : Bool :=
  match frame.error with
  | some .null => false
  | some _ => true
  | none => false

/-- The defensive status check of `Next`: a non-empty status whose lowercase
form mentions the failure vocabulary. -/
def statusIndicatesFailure (status : String) : Bool :=
  if status = "" then false
  else
    strContainsSub (strToLower status) "error" || strContainsSub (strToLower status) "fail" ||
      strContainsSub (strToLower status) "failed"

/-- The embedded-error inspection `Next` performs on decoded data payloads:
returns the panic message when the payload is a mapping with an `error` key
(non-nil) or a `type` equal to `error` (case-insensitively). -/
def inspectDataPayload (payload : Json) : Option String :=
  match payload with
  | .obj m =>
    (match lookupField "error" m with
     | some .null => inspectTypeField m
     | some rawErr =>
       some (formatFriendlyError (newExecutionError 0 ((parseAPIError rawErr).map enrichErrorPayload)))
     | none => inspectTypeField m)
  | _ => none
where
  /-- The `m["type"] == "error"` fallback check, lifting `message`/`code`
  through `fmt.Sprint`. -/
  inspectTypeField (m : List (String × Json)) : Option String :=
    match lookupField "type" m with
    | some (.str t) =>
      if strEqualFold t "error" then
        some (formatFriendlyError (newExecutionError 0 (some (enrichErrorPayload
          { type := ErrorTypeServer
            message := goFmtValue ((lookupField "message" m).getD .null)
            code := goFmtValue ((lookupField "code" m).getD .null) }))))
      else none
    | _ => none

/-- State of a `StreamIterator` together with its WebSocket connection:
`buffer` holds the raw messages the connection will deliver in order, and
`connCloseCount` counts `conn.Close` invocations. -/
structure IterState where
  closed : Bool := false
  buffer : List String := []
  connCloseCount : Nat := 0
deriving Repr, DecidableEq

/-- Embedding of `StreamIterator.Close`: a no-op returning nil when already
closed, otherwise mark closed and close the connection (whose own close is
modelled as error-free, so the returned error is the interesting part of the
Go signature only through its nil-ness). -/
def closeIter (s : IterState) : Option RunAgentError × IterState :=
  if s.closed then (none, s)
  else (none, { s with closed := true, connCloseCount := s.connCloseCount + 1 })

/-- The outcome of one `Next(ctx)` call, covering the value/bool/error
triple and the panic paths. -/
inductive NextOutcome where
  | chunk (v : Json) : NextOutcome
  | finished : NextOutcome
  | failed (e : RunAgentError) : NextOutcome
  | ctxCanceled : NextOutcome
  | fatal (msg : String) : NextOutcome
deriving Repr

/-- The read loop of `Next` on an open iterator: `ctxDone` models whether
the caller-supplied context is cancelled (checked before each blocking
read), the list is the connection buffer, and the `Nat` the running
`conn.Close` count. -/
def nextFromBuffer (ctxDone : Bool) : List String → Nat → NextOutcome × IterState
  | buf, closes =>
    if ctxDone then
      (.ctxCanceled, (closeIter { closed := false, buffer := buf, connCloseCount := closes }).2)
    else
      match buf with
      | [] =>
        (.failed { type := ErrorTypeConnection, message := "failed to read stream message" },
         (closeIter { closed := false, buffer := [], connCloseCount := closes }).2)
      | msg :: rest =>
        let closedNow := (closeIter { closed := false, buffer := rest, connCloseCount := closes }).2
        match parseStreamFrame msg with
        | none =>
          (.failed { type := ErrorTypeServer, message := "invalid stream message" }, closedNow)
        | some frame =>
          if isErrFieldSet frame then (.fatal (fatalFromFrame frame), closedNow)
          else if strEqualFold frame.type "error" then (.fatal (fatalFromFrame frame), closedNow)
          else if statusIndicatesFailure frame.status then (.fatal (fatalFromFrame frame), closedNow)
          else
            let dataBranch : NextOutcome × IterState :=
              let payload := decodeStreamPayload frame
              match inspectDataPayload payload with
              | some m => (.fatal m, closedNow)
              | none => (.chunk payload, { closed := false, buffer := rest, connCloseCount := closes })
            match strToLower frame.type with
            | "status" =>
              (match strToLower frame.status with
               | "stream_started" => nextFromBuffer ctxDone rest closes
               | "error" => (.fatal (fatalFromFrame frame), closedNow)
               | "stream_error" => (.fatal (fatalFromFrame frame), closedNow)
               | "failed" => (.fatal (fatalFromFrame frame), closedNow)
               | "stream_failed" => (.fatal (fatalFromFrame frame), closedNow)
               | "stream_completed" => (.finished, closedNow)
               | _ => nextFromBuffer ctxDone rest closes)
            | "error" => (.fatal (fatalFromFrame frame), closedNow)
            | "data" => dataBranch
            | _ => dataBranch

/-- Embedding of `StreamIterator.Next`: the closed short-circuit, then the
read loop. -/
def next (ctxDone : Bool) (s : IterState) : NextOutcome × IterState :=
  if s.closed then (.finished, s)
  else nextFromBuffer ctxDone s.buffer s.connCloseCount

/-! ### Payload builder (`coerceToRunInput` and the argument tokens) -/

/-- One caller-supplied `any` value of `Run`/`RunStream`, classified the way
the Go type switch and reflection checks classify it.  `structVal` carries
the field map `structToMap` produces via the JSON round-trip (which cannot
fail for JSON-shaped values); `bareSliceAny` is a raw `[]any`, rejected for
ambiguity; `prim` is any other bare value. -/
inductive ArgToken where
  | arg (v : Json) : ArgToken
  | args (vs : List Json) : ArgToken
  | kw (k : String) (v : Json) : ArgToken
  | kws (m : List (String × Json)) : ArgToken
  | rawMap (m : List (String × Json)) : ArgToken
  | structVal (m : List (String × Json)) : ArgToken
  | bareSliceAny (vs : List Json) : ArgToken
  | prim (v : Json) : ArgToken

/-- Embedding of `RunInput`.  The Go invariant that both collections are
non-nil once constructed is invisible in the list model (nil and empty
coincide). -/
structure RunInput where
  inputArgs : List Json := []
  inputKwargs : List (String × Json) := []
  timeoutSeconds : Int := 0
  asyncExecution : Option Bool := none

/-- One keyword-argument write (`input.InputKwargs[k] = v`): Go map
semantics, replacing the binding when the key exists. -/
def addKw (kwargs : List (String × Json)) (k : String) (v : Json) : List (String × Json) :=
  if kwargs.any (fun p => p.1 = k) then
    kwargs.map (fun p => if p.1 = k then (k, v) else p)
  else kwargs ++ [(k, v)]

/-- Fold a bulk keyword map into the accumulated keyword arguments.  A Go
map has unique keys, so the list order of `m` only matters when `m` itself
repeats a key (which cannot arise from a Go map). -/
def addKwList (kwargs : List (String × Json)) (m : List (String × Json)) : List (String × Json) :=
  m.foldl (fun acc p => addKw acc p.1 p.2) kwargs

/-- Processing of one token inside the loop of `coerceToRunInput`. -/
def coerceStep (st : RunInput) : ArgToken → Except RunAgentError RunInput
  | .arg v => .ok { st with inputArgs := st.inputArgs ++ [v] }
  | .args vs => .ok { st with inputArgs := st.inputArgs ++ vs }
  | .kw k v => .ok { st with inputKwargs := addKw st.inputKwargs k v }
  | .kws m => .ok { st with inputKwargs := addKwList st.inputKwargs m }
  | .rawMap m => .ok { st with inputKwargs := addKwList st.inputKwargs m }
  | .structVal m => .ok { st with inputKwargs := addKwList st.inputKwargs m }
  | .bareSliceAny _ =>
    .error { type := ErrorTypeValidation
             message := "pass positional slice via Args(...), not raw []any"
             suggestion := "Use runagent.Args(v1, v2, ...)" }
  | .prim v => .ok { st with inputArgs := st.inputArgs ++ [v] }

/-- The token loop of `coerceToRunInput`, threading the partial `RunInput`. -/
def coerceGo (st : RunInput) : List ArgToken → Except RunAgentError RunInput
  | [] => .ok st
  | t :: ts =>
    match coerceStep st t with
    | .ok st' => coerceGo st' ts
    | .error e => .error e

/-- Embedding of `coerceToRunInput` (runagent/client.go). -/
def coerceToRunInput (values : List ArgToken) : Except RunAgentError RunInput :=
  coerceGo {} values

/-! ### Client façade: construction and the pre-network phase of
`Run`/`RunStream` -/

/-- Library defaults from `pkg/constants`. -/
def DefaultTimeoutSeconds : Int := 300

def DefaultStreamTimeout : Int := 600

def DefaultBaseURL : String := "https://backend.run-agent.ai"

def DefaultAPIPrefix : String := "/api/v1"

/-- The SDK version constant.  Its declaration is not among the provided
sources; it only feeds the `User-Agent` header text and its value is
immaterial to every claim. -/
def Version : String := "0.1.0"

/-- Embedding of `userAgent`. -/
def userAgent : String := "runagent-go/" ++ Version

/-- Embedding of `RunAgentClient` (the resolved, immutable client state;
`localMode` is the Go field `local`).  The HTTP client and the opaque
`extraParams` passthrough are not modelled. -/
structure Client where
  agentID : String
  entrypointTag : String
  localMode : Bool
  baseRESTURL : String
  baseSocketURL : String
  apiKey : String
  timeoutSecs : Int
  asyncDefault : Bool

/-- The guardrail predicate shared by `Run` and `RunStream`: a reserved
streaming alias or a tag whose lowercase form ends in `_stream`. -/
def isStreamEntrypoint (tag : String) : Bool :=
  tag = "generic_stream" || tag = "stream" || strHasSuffix (strToLower tag) "_stream"

/-- Embedding of `apiRunRequest`, the serialized request body. -/
structure ApiRunRequest where
  entrypointTag : String
  inputArgs : List Json
  inputKwargs : List (String × Json)
  timeoutSeconds : Int
  asyncExecution : Bool

/-- Embedding of `RunInput.toAPIPayload`. -/
def RunInput.toAPIPayload (i : RunInput) (entrypoint : String) (fallbackTimeout : Int)
    (defaultAsync : Bool) : ApiRunRequest :=
  { entrypointTag := entrypoint
    inputArgs := i.inputArgs
    inputKwargs := i.inputKwargs
    timeoutSeconds := if 0 < i.timeoutSeconds then i.timeoutSeconds else fallbackTimeout
    asyncExecution := i.asyncExecution.getD defaultAsync }

/-- The HTTP request `Run` hands to `httpClient.Do`.  JSON serialization of
the payload and `http.NewRequestWithContext` on the URLs the client builds
cannot fail, so they are modelled as part of the successful construction. -/
structure HttpRequest where
  method : String
  url : String
  payload : ApiRunRequest
  headers : List (String × String)

/-- Embedding of everything `RunAgentClient.Run` does before the network
call `httpClient.Do`: the stream guardrail, argument coercion, payload
construction, endpoint and headers, and the remote-mode credential check.
An `Except.error` result means `Run` returns that error with no network
call attempted. -/
def runPreflight (c : Client) (values : List ArgToken) : Except RunAgentError HttpRequest :=
  if isStreamEntrypoint c.entrypointTag then
    .error { type := ErrorTypeValidation
             message := "stream entrypoint must be invoked with RunStream"
             code := "STREAM_ENTRYPOINT"
             suggestion := "Use client.RunStream(...) for *_stream tags" }
  else
    match coerceToRunInput values with
    | .error e => .error e
    | .ok input =>
      let payload := input.toAPIPayload c.entrypointTag c.timeoutSecs c.asyncDefault
      let endpoint := c.baseRESTURL ++ "/agents/" ++ c.agentID ++ "/run"
      let baseHeaders := [("Content-Type", "application/json"), ("User-Agent", userAgent)]
      if c.localMode then
        .ok { method := "POST", url := endpoint, payload := payload, headers := baseHeaders }
      else if c.apiKey = "" then
        .error { type := ErrorTypeAuthentication
                 message := "api_key is required for remote runs"
                 suggestion := "Set RUNAGENT_API_KEY or pass Config.APIKey" }
      else
        .ok { method := "POST", url := endpoint, payload := payload
              headers := baseHeaders ++ [("Authorization", "Bearer " ++ c.apiKey)] }

/-- Models `appendToken` for the query-free endpoint URLs the client
constructs: append the credential as a `token` query parameter. -/
def appendToken (uri token : String) : String :=
  if token = "" then uri else uri ++ "?token=" ++ token

/-- The WebSocket dial target and handshake payload `RunStream` prepares. -/
structure StreamHandshake where
  url : String
  payload : ApiRunRequest
  headers : List (String × String)

/-- Embedding of everything `RunAgentClient.RunStream` does before the
network call `dialer.DialContext`: the non-stream guardrail, argument
coercion, payload construction, the credential check and the token-bearing
endpoint.  An `Except.error` result means `RunStream` returns that error
with no network call attempted. -/
def runStreamPreflight (c : Client) (values : List ArgToken) :
    Except RunAgentError StreamHandshake :=
  if ¬ isStreamEntrypoint c.entrypointTag then
    .error { type := ErrorTypeValidation
             message := "non-stream entrypoint must be invoked with Run"
             code := "NON_STREAM_ENTRYPOINT"
             suggestion := "Use client.Run(...) for non-stream tags" }
  else
    match coerceToRunInput values with
    | .error e => .error e
    | .ok input =>
      let payload0 := input.toAPIPayload c.entrypointTag DefaultStreamTimeout false
      let payload := { payload0 with asyncExecution := false }
      if ¬ c.localMode ∧ c.apiKey = "" then
        .error { type := ErrorTypeAuthentication
                 message := "api_key is required for remote streaming"
                 suggestion := "Set RUNAGENT_API_KEY or pass Config.APIKey" }
      else
        let endpoint := c.baseSocketURL ++ "/agents/" ++ c.agentID ++ "/run-stream"
        let endpoint :=
          if ¬ c.localMode ∧ c.apiKey ≠ "" then appendToken endpoint c.apiKey else endpoint
        .ok { url := endpoint, payload := payload, headers := [("User-Agent", userAgent)] }

/-! ### Client construction (`NewRunAgentClient`) -/

/-- Embedding of the public `Config` passed to `NewRunAgentClient`
(`localFlag` is the `*bool` field `Local`). -/
structure GoConfig where
  agentID : String := ""
  entrypointTag : String := ""
  localFlag : Option Bool := none
  host : String := ""
  port : Int := 0
  baseURL : String := ""
  apiKey : String := ""
  timeoutSeconds : Int := 0
  asyncExecution : Option Bool := none

/-- Embedding of `envConfig` as produced by `loadEnvConfig` (string values
already trimmed by the loader). -/
structure EnvConfig where
  apiKey : String := ""
  baseURL : String := ""
  host : String := ""
  port : Int := 0
  timeoutSeconds : Int := 0
  localFlag : Option Bool := none

/-- Embedding of `resolveBool`. -/
def resolveBool (explicit fallback : Option Bool) (defaultValue : Bool) : Bool :=
  match explicit with
  | some b => b
  | none =>
    match fallback with
    | some b => b
    | none => defaultValue

/-- Embedding of `firstNonEmpty`. -/
def firstNonEmpty : List String → String
  | [] => ""
  | c :: rest => if strTrim c ≠ "" then strTrim c else firstNonEmpty rest

/-- Embedding of `firstNonZero`. -/
def firstNonZero : List Int → Int
  | [] => 0
  | c :: rest => if 0 < c then c else firstNonZero rest

/-- Go `strings.HasPrefix s p` on char lists. -/
def strHasPre (s p : String) : Bool :=
  listStarts p.data s.data

/-- Go `strings.TrimSuffix`: remove one trailing occurrence if present. -/
def strTrimSuffixOne (s suf : String) : String :=
  if strHasSuffix s suf then String.mk (s.data.take (s.length - suf.length)) else s

/-- Go `strings.TrimPrefix`: remove one leading occurrence if present. -/
def strTrimPre (s p : String) : String :=
  if strHasPre s p then String.mk (s.data.drop p.length) else s

/-- Embedding of `normalizeRemoteBases`. -/
def normalizeRemoteBases (raw : String) : Except RunAgentError (String × String) :=
  let raw := if raw = "" then DefaultBaseURL else raw
  let raw := if strHasPre raw "http://" || strHasPre raw "https://" then raw else "https://" ++ raw
  let trimmed := strTrimSuffixOne raw "/"
  let restBase := trimmed ++ DefaultAPIPrefix
  if strHasPre trimmed "https://" then
    .ok (restBase, "wss://" ++ strTrimPre trimmed "https://" ++ DefaultAPIPrefix)
  else if strHasPre trimmed "http://" then
    .ok (restBase, "ws://" ++ strTrimPre trimmed "http://" ++ DefaultAPIPrefix)
  else
    .error { type := ErrorTypeValidation, message := "invalid base URL: " ++ raw }

/-- Embedding of `NewRunAgentClient`.  The local registry lookup
(`discoverLocalAgent`, backed by the external `db` collaborator) is passed
in as `discover`; it is only consulted in local mode when host or port is
still unresolved. -/
def newRunAgentClient (cfg : GoConfig) (env : EnvConfig)
    (discover : String → Except RunAgentError (String × Int)) : Except RunAgentError Client :=
  if strTrim cfg.agentID = "" then
    .error { type := ErrorTypeValidation, message := "agent_id is required" }
  else if strTrim cfg.entrypointTag = "" then
    .error { type := ErrorTypeValidation, message := "entrypoint_tag is required" }
  else
    let localMode := resolveBool cfg.localFlag env.localFlag false
    let asyncDefault := resolveBool cfg.asyncExecution none false
    let timeout :=
      if 0 < cfg.timeoutSeconds then cfg.timeoutSeconds
      else if 0 < env.timeoutSeconds then env.timeoutSeconds
      else DefaultTimeoutSeconds
    let apiKey := firstNonEmpty [cfg.apiKey, env.apiKey]
    let baseURL := firstNonEmpty [cfg.baseURL, env.baseURL, DefaultBaseURL]
    let mkClient : String → String → Client := fun restBase socketBase =>
      { agentID := cfg.agentID, entrypointTag := cfg.entrypointTag, localMode := localMode
        baseRESTURL := restBase, baseSocketURL := socketBase, apiKey := apiKey
        timeoutSecs := timeout, asyncDefault := asyncDefault }
    if localMode then
      let host0 := firstNonEmpty [cfg.host, env.host]
      let port0 := firstNonZero [cfg.port, env.port]
      let resolved : Except RunAgentError (String × Int) :=
        if host0 = "" ∨ port0 = 0 then
          match discover cfg.agentID with
          | .error e => .error e
          | .ok (dh, dp) =>
            .ok (if host0 = "" then dh else host0, if port0 = 0 then dp else port0)
        else .ok (host0, port0)
      match resolved with
      | .error e => .error e
      | .ok (host, port) =>
        if host = "" ∨ port = 0 then
          .error { type := ErrorTypeValidation
                   message := "unable to resolve local host/port"
                   suggestion := "Pass Config.Host/Config.Port or ensure the agent is registered locally" }
        else
          .ok (mkClient ("http://" ++ host ++ ":" ++ toString port ++ DefaultAPIPrefix)
                ("ws://" ++ host ++ ":" ++ toString port ++ DefaultAPIPrefix))
    else
      match normalizeRemoteBases baseURL with
      | .error e => .error e
      | .ok (restBase, socketBase) => .ok (mkClient restBase socketBase)

/-! ### Concrete scenario data shared by the claim theorems -/

/-- The response body of the nested-`result_data` scenario:
`{"data": "{\"result_data\":{\"data\":{\"x\":1}}}"}`. -/
def nestedResultBody : String :=
  "\x7b\"data\":\"\x7b\\\"result_data\\\":\x7b\\\"data\\\":\x7b\\\"x\\\":1\x7d\x7d\x7d\"\x7d"

/-- A `status`/`stream_started` frame. -/
def frameStreamStarted : String := "\x7b\"type\":\"status\",\"status\":\"stream_started\"\x7d"

/-- A `data` frame carrying the chunk `"a"`. -/
def frameDataA : String := "\x7b\"type\":\"data\",\"content\":\"a\"\x7d"

/-- A `data` frame carrying the chunk `"b"`. -/
def frameDataB : String := "\x7b\"type\":\"data\",\"content\":\"b\"\x7d"

/-- A `status`/`stream_completed` frame. -/
def frameStreamCompleted : String := "\x7b\"type\":\"status\",\"status\":\"stream_completed\"\x7d"

/-- A `status`/`stream_failed` frame. -/
def frameStreamFailed : String := "\x7b\"type\":\"status\",\"status\":\"stream_failed\"\x7d"

/-- Observation on a normalizer result: the top-level keys of a successful
object value (used to distinguish object values without a decidable
equality on `Json`). -/
def okTopKeys : Except RunAgentExecutionError Json → List String
  | .ok (.obj fields) => fields.map Prod.fst
  | _ => []

/-- The keys of a keyword-argument mapping. -/
def kwKeys (kwargs : List (String × Json)) : List String :=
  kwargs.map Prod.fst

example : parseJson "\x7b\"x\":1\x7d" = some (.obj [("x", .num 1)]) := rfl
example : parseJson "a" = none := rfl
example : parseJson nestedResultBody =
    some (.obj [("data", .str "\x7b\"result_data\":\x7b\"data\":\x7b\"x\":1\x7d\x7d\x7d")]) := rfl
example : decodeStructuredString "\x7b\"result_data\":\x7b\"data\":\x7b\"x\":1\x7d\x7d\x7d" =
    .obj [("result_data", .obj [("data", .obj [("x", .num 1)])])] := rfl

/-! ## Claim theorems -/

/-- C9: a string that is not valid JSON is returned unchanged by
`decodeStructuredString` (so re-decoding the result is the identity and
`decode (decode s) = decode s`), and a string that is valid JSON is
unwrapped exactly one level: the parsed value is returned as-is and never
re-decoded, so a doubly-JSON-encoded value loses only one encoding level
per decode boundary. -/
theorem decodeStructuredString_plain_and_single_unwrap (s : String) :
    (parseJson s = none → decodeStructuredString s = .str s) ∧
    (∀ v, parseJson s = some v → decodeStructuredString s = v) := by
  constructor
  · intro h
    by_cases hs : s = ""
    · subst hs; rfl
    · simp [decodeStructuredString, hs, h]
  · intro v hv
    by_cases hs : s = ""
    · subst hs
      rw [show parseJson "" = none from rfl] at hv
      cases hv
    · simp [decodeStructuredString, hs, hv]

/-- Witness for C9: a plain string comes back unchanged, and the
doubly-encoded string `"\"{\\\"x\\\":1}\""` is unwrapped to the inner
encoded text, not to the object it encodes. -/
theorem decodeStructuredString_plain_and_single_unwrap_witness :
    decodeStructuredString "hello world" = .str "hello world" ∧
    decodeStructuredString "\"\x7b\\\"x\\\":1\x7d\"" = .str "\x7b\"x\":1\x7d" :=
  ⟨(decodeStructuredString_plain_and_single_unwrap "hello world").1 rfl,
   (decodeStructuredString_plain_and_single_unwrap "\"\x7b\\\"x\\\":1\x7d\"").2 _ rfl⟩

/-- C1 counterexample: on the body
`{"data": "{\"result_data\":{\"data\":{\"x\":1}}}"}` the normalizer returns
the full one-level-decoded object (whose only top-level key is
`result_data`), not the innermost `{"x":1}` the claim expects: the
`result_data.data` probe runs only when `data` is itself a JSON object, not
after decoding a JSON-encoded string. -/
theorem parseRunResponse_string_data_not_innermost :
    parseRunResponse 200 nestedResultBody =
      .ok (.obj [("result_data", .obj [("data", .obj [("x", .num 1)])])]) ∧
    okTopKeys (parseRunResponse 200 nestedResultBody) ≠ ["x"] :=
  ⟨rfl, by decide⟩

/-- C1 (amended): when the envelope carries no failure indicator and its
`data` field is a JSON-encoded string whose decoded value is an object, the
normalizer returns that full decoded object (further normalized through the
`payload` unwrap), not the nested `result_data.data` value. -/
theorem parseRunResponse_string_data_decodes_one_level (status : Int) (body : String)
    (envelope : List (String × Json)) (s : String) (m : List (String × Json))
    (hparse : parseJson body = some (.obj envelope))
    (hne : extractAPIError envelope = none)
    (hdata : lookupField "data" envelope = some (.str s))
    (hdec : decodeStructuredString s = .obj m) :
    parseRunResponse status body = .ok (decodeStructuredObject m) := by
  simp [parseRunResponse, hparse, parseEnvelope, hne, hdata, unwrapDataField, hdec]

/-- Witness for the amended C1 on the concrete body of the claim. -/
theorem parseRunResponse_string_data_decodes_one_level_witness :
    parseRunResponse 200 nestedResultBody =
      .ok (decodeStructuredObject [("result_data", .obj [("data", .obj [("x", .num 1)])])]) :=
  parseRunResponse_string_data_decodes_one_level 200 nestedResultBody
    [("data", .str "\x7b\"result_data\":\x7b\"data\":\x7b\"x\":1\x7d\x7d\x7d")]
    "\x7b\"result_data\":\x7b\"data\":\x7b\"x\":1\x7d\x7d\x7d"
    [("result_data", .obj [("data", .obj [("x", .num 1)])])] rfl rfl rfl rfl

/-- C2 (code_bug evaluation): a `status` frame with status `stream_failed`
makes `Next` close the connection and panic with the formatted friendly
message (the `NextOutcome.fatal` outcome) instead of returning the
classified error as an error value; afterwards the iterator is closed and a
further `Next` reports end-of-stream, so no later buffered frame is ever
yielded. -/
theorem next_aborts_on_stream_failed_frame :
    (next false ⟨false, [frameStreamFailed, frameDataA], 0⟩).1 =
      .fatal "RunAgent error: stream failed (SERVER_ERROR)" ∧
    (next false ⟨false, [frameStreamFailed, frameDataA], 0⟩).2 = ⟨true, [frameDataA], 1⟩ ∧
    next false (⟨true, [frameDataA], 1⟩ : IterState) = (.finished, ⟨true, [frameDataA], 1⟩) :=
  ⟨rfl, rfl, rfl⟩

/-- C3: on the frame sequence
`[status:stream_started, data:"a", data:"b", status:stream_completed]` the
iterator yields exactly the chunks `"a"` then `"b"` (the informational
start frame is skipped inside one call), and the next call closes the
connection and reports graceful end-of-stream with no error. -/
theorem next_yields_chunks_then_completes :
    next false ⟨false, [frameStreamStarted, frameDataA, frameDataB, frameStreamCompleted], 0⟩ =
      (.chunk (.str "a"), ⟨false, [frameDataB, frameStreamCompleted], 0⟩) ∧
    next false ⟨false, [frameDataB, frameStreamCompleted], 0⟩ =
      (.chunk (.str "b"), ⟨false, [frameStreamCompleted], 0⟩) ∧
    next false ⟨false, [frameStreamCompleted], 0⟩ = (.finished, ⟨true, [], 1⟩) :=
  ⟨rfl, rfl, rfl⟩

/-- Enrichment only fills the suggestion: the error kind is preserved. -/
theorem enrich_preserves_type (e : ApiErrorPayload) :
    (enrichErrorPayload e).type = e.type := by
  simp only [enrichErrorPayload]
  split_ifs <;> rfl

/-- The kind of a service error: the enriched payload kind, defaulting to
`SERVER_ERROR` when empty. -/
theorem newExecutionError_type (status : Int) (e : ApiErrorPayload) :
    (newExecutionError status (some e)).type =
      if e.type = "" then ErrorTypeServer else e.type := by
  simp [newExecutionError, enrich_preserves_type]

/-- C5 counterexample: the HTTP error classifier maps status 403 to
`AUTHENTICATION_ERROR`, not to the distinct `PERMISSION_ERROR` kind, and
for a status of at least 500 the status-derived `SERVER_ERROR` kind
overwrites an explicit `type` supplied by the structured body (the claim
has the override direction backwards). -/
theorem translateHTTPError_403_authentication_cx :
    (translateHTTPError 403 "").type = ErrorTypeAuthentication ∧
    ErrorTypeAuthentication ≠ ErrorTypePermission ∧
    (translateHTTPError 500
        "\x7b\"error\":\x7b\"type\":\"VALIDATION_ERROR\",\"message\":\"boom\"\x7d\x7d").type =
      ErrorTypeServer :=
  ⟨rfl, by decide, rfl⟩

/-- C5 (amended): statuses 401 and 403 both map to `AUTHENTICATION_ERROR`
(the distinct `PERMISSION_ERROR` constant exists but the HTTP classifier
does not use it), a status of at least 500 maps to `SERVER_ERROR`, and for
these statuses the status-derived kind overrides any kind supplied by the
structured body; for every other status, a non-empty explicit `type` in the
structured error body determines the kind. -/
theorem translateHTTPError_status_kind_rules (status : Int) (body : String) :
    ((status = 401 ∨ status = 403) →
      (translateHTTPError status body).type = ErrorTypeAuthentication) ∧
    (500 ≤ status → (translateHTTPError status body).type = ErrorTypeServer) ∧
    (∀ (fields : List (String × Json)) (p : ApiErrorPayload),
      status ≠ 401 → status ≠ 403 → status < 500 →
      parseJson body = some (.obj fields) → extractAPIError fields = some p →
      p.type ≠ "" → (translateHTTPError status body).type = p.type) := by
  refine ⟨fun h => ?_, fun h => ?_, fun fields p h1 h2 h3 hp hex hpt => ?_⟩
  · simp only [translateHTTPError]
    rw [if_pos h, newExecutionError_type]
    simp [ErrorTypeAuthentication]
  · have hno : ¬ (status = 401 ∨ status = 403) := by omega
    simp only [translateHTTPError]
    rw [if_neg hno, if_pos h, newExecutionError_type]
    simp [ErrorTypeServer]
  · have hno : ¬ (status = 401 ∨ status = 403) := by omega
    have hno2 : ¬ (500 ≤ status) := by omega
    simp only [translateHTTPError, hp, hex]
    rw [if_neg hno, if_neg hno2, newExecutionError_type, enrich_preserves_type, if_neg hpt]

/-- Witness for C5: 401 classifies as authentication, 503 as server, and at
status 404 the body-supplied `VALIDATION_ERROR` kind is used. -/
theorem translateHTTPError_status_kind_rules_witness :
    (translateHTTPError 401 "").type = ErrorTypeAuthentication ∧
    (translateHTTPError 503 "").type = ErrorTypeServer ∧
    (translateHTTPError 404
        "\x7b\"error\":\x7b\"type\":\"VALIDATION_ERROR\",\"message\":\"boom\"\x7d\x7d").type =
      "VALIDATION_ERROR" :=
  ⟨(translateHTTPError_status_kind_rules 401 "").1 (Or.inl rfl),
   (translateHTTPError_status_kind_rules 503 "").2.1 (by omega),
   (translateHTTPError_status_kind_rules 404
       "\x7b\"error\":\x7b\"type\":\"VALIDATION_ERROR\",\"message\":\"boom\"\x7d\x7d").2.2
     [("error", .obj [("type", .str "VALIDATION_ERROR"), ("message", .str "boom")])]
     { type := "VALIDATION_ERROR", message := "boom" }
     (by omega) (by omega) (by omega) rfl rfl (by decide)⟩

/-- C4: an envelope exhibiting the explicit failure indicator — a `success`
field equal to `false`, or an `error` field with non-null content — always
makes the normalizer return an error, never a success value, whatever other
fields are present. -/
theorem parseRunResponse_failure_indicator_errors (status : Int) (body : String)
    (fields : List (String × Json))
    (hparse : parseJson body = some (.obj fields))
    (hind : lookupField "success" fields = some (.bool false) ∨
      ∃ v, lookupField "error" fields = some v ∧ v ≠ Json.null) :
    ∃ e, parseRunResponse status body = .error e := by
  have hex : extractAPIError fields ≠ none := by
    rcases hind with hsucc | ⟨v, hv, hvn⟩
    · cases herr : lookupField "error" fields with
      | none => simp [extractAPIError, herr, hsucc]
      | some rawErr =>
        cases hpe : parseAPIError rawErr with
        | none => simp [extractAPIError, herr, hpe, hsucc]
        | some p => simp [extractAPIError, herr, hpe]
    · cases v with
      | null => exact absurd rfl hvn
      | bool b => simp [extractAPIError, hv, parseAPIError]
      | num n => simp [extractAPIError, hv, parseAPIError]
      | str s => simp [extractAPIError, hv, parseAPIError]
      | arr xs => simp [extractAPIError, hv, parseAPIError]
      | obj fs => simp [extractAPIError, hv, parseAPIError]
  obtain ⟨p, hp⟩ := Option.ne_none_iff_exists'.mp hex
  exact ⟨newExecutionError status (some p),
    by simp [parseRunResponse, hparse, parseEnvelope, hp]⟩

/-- Witness for C4 on a 200 body that carries `success: false` next to an
innocuous `data` field. -/
theorem parseRunResponse_failure_indicator_errors_witness :
    ∃ e, parseRunResponse 200 "\x7b\"success\":false,\"data\":\"ok\"\x7d" = .error e :=
  parseRunResponse_failure_indicator_errors 200 "\x7b\"success\":false,\"data\":\"ok\"\x7d"
    [("success", .bool false), ("data", .str "ok")] rfl (Or.inl rfl)

/-- C6: a streaming entrypoint tag makes `Run` fail immediately in its
pre-network phase with the `VALIDATION_ERROR`/`STREAM_ENTRYPOINT` error,
for any argument list, and a non-streaming tag symmetrically makes
`RunStream` fail with `VALIDATION_ERROR`/`NON_STREAM_ENTRYPOINT`; both
guardrails run on the locally-known tag alone, before any request is
built. -/
theorem guardrail_rejects_mismatched_operation (c : Client) (values : List ArgToken) :
    (isStreamEntrypoint c.entrypointTag = true →
      runPreflight c values = .error
        { type := ErrorTypeValidation
          message := "stream entrypoint must be invoked with RunStream"
          code := "STREAM_ENTRYPOINT"
          suggestion := "Use client.RunStream(...) for *_stream tags" }) ∧
    (isStreamEntrypoint c.entrypointTag = false →
      runStreamPreflight c values = .error
        { type := ErrorTypeValidation
          message := "non-stream entrypoint must be invoked with Run"
          code := "NON_STREAM_ENTRYPOINT"
          suggestion := "Use client.Run(...) for non-stream tags" }) := by
  constructor
  · intro h
    simp [runPreflight, h]
  · intro h
    simp [runStreamPreflight, h]

/-- Witness for C6 at the tag `foo_stream` given to `Run` and the tag
`minimal` given to `RunStream`. -/
theorem guardrail_rejects_mismatched_operation_witness :
    runPreflight
        { agentID := "agent-1", entrypointTag := "foo_stream", localMode := true
          baseRESTURL := "http://localhost:8450/api/v1"
          baseSocketURL := "ws://localhost:8450/api/v1"
          apiKey := "", timeoutSecs := 300, asyncDefault := false } [] =
      .error
        { type := ErrorTypeValidation
          message := "stream entrypoint must be invoked with RunStream"
          code := "STREAM_ENTRYPOINT"
          suggestion := "Use client.RunStream(...) for *_stream tags" } ∧
    runStreamPreflight
        { agentID := "agent-1", entrypointTag := "minimal", localMode := true
          baseRESTURL := "http://localhost:8450/api/v1"
          baseSocketURL := "ws://localhost:8450/api/v1"
          apiKey := "", timeoutSecs := 300, asyncDefault := false } [] =
      .error
        { type := ErrorTypeValidation
          message := "non-stream entrypoint must be invoked with Run"
          code := "NON_STREAM_ENTRYPOINT"
          suggestion := "Use client.Run(...) for non-stream tags" } :=
  ⟨(guardrail_rejects_mismatched_operation _ []).1 rfl,
   (guardrail_rejects_mismatched_operation _ []).2 rfl⟩

/-- C7: a client constructed in remote mode with no API key configured in
either the constructor config or the environment fails `Run` in its
pre-network phase with the `AUTHENTICATION_ERROR` credential error — the
HTTP transport is never invoked — for any argument list that coerces. -/
theorem run_requires_api_key_remote (cfg : GoConfig) (env : EnvConfig)
    (discover : String → Except RunAgentError (String × Int)) (c : Client)
    (values : List ArgToken) (inp : RunInput)
    (hremote : resolveBool cfg.localFlag env.localFlag false = false)
    (hk1 : strTrim cfg.apiKey = "") (hk2 : strTrim env.apiKey = "")
    (hctor : newRunAgentClient cfg env discover = .ok c)
    (htag : isStreamEntrypoint c.entrypointTag = false)
    (hargs : coerceToRunInput values = .ok inp) :
    runPreflight c values = .error
      { type := ErrorTypeAuthentication
        message := "api_key is required for remote runs"
        suggestion := "Set RUNAGENT_API_KEY or pass Config.APIKey" } := by
  have hkey : firstNonEmpty [cfg.apiKey, env.apiKey] = "" := by
    simp [firstNonEmpty, hk1, hk2]
  simp only [newRunAgentClient] at hctor
  split at hctor
  · exact Except.noConfusion hctor
  · split at hctor
    · exact Except.noConfusion hctor
    · rw [hremote] at hctor
      simp only [Bool.false_eq_true, if_false] at hctor
      split at hctor
      · exact Except.noConfusion hctor
      · injection hctor with hc
        subst hc
        simp [runPreflight, htag, hargs, hkey]

/-- Witness for C7: a remote-mode client built from a config and an
environment holding no credential rejects `Run` in the pre-network phase. -/
theorem run_requires_api_key_remote_witness :
    runPreflight
        { agentID := "agent-7", entrypointTag := "minimal", localMode := false
          baseRESTURL := "https://backend.run-agent.ai/api/v1"
          baseSocketURL := "wss://backend.run-agent.ai/api/v1"
          apiKey := "", timeoutSecs := 300, asyncDefault := false } [] =
      .error
        { type := ErrorTypeAuthentication
          message := "api_key is required for remote runs"
          suggestion := "Set RUNAGENT_API_KEY or pass Config.APIKey" } :=
  run_requires_api_key_remote { agentID := "agent-7", entrypointTag := "minimal" } {}
    (fun _ => .ok ("", 0))
    { agentID := "agent-7", entrypointTag := "minimal", localMode := false
      baseRESTURL := "https://backend.run-agent.ai/api/v1"
      baseSocketURL := "wss://backend.run-agent.ai/api/v1"
      apiKey := "", timeoutSecs := 300, asyncDefault := false } [] {}
    rfl rfl rfl rfl rfl rfl

/-! ### Lemmas for the payload-builder claim -/

/-- Evaluation of a lookup on a cons cell. -/
theorem lookupField_cons (k pk : String) (pv : Json) (rest : List (String × Json)) :
    lookupField k ((pk, pv) :: rest) = if pk = k then some pv else lookupField k rest := rfl

/-- Splitting a lookup across an append. -/
theorem lookupField_append (k : String) :
    ∀ l1 l2 : List (String × Json),
      lookupField k (l1 ++ l2) =
        match lookupField k l1 with
        | some v => some v
        | none => lookupField k l2 := by
  intro l1 l2
  induction l1 with
  | nil => rfl
  | cons p rest ih =>
    obtain ⟨pk, pv⟩ := p
    by_cases hp : pk = k
    · simp [lookupField, hp]
    · simp [lookupField, hp, ih]

/-- Replacing the binding of one key does not affect lookups of another. -/
theorem lookupField_replace_ne (k k' : String) (v : Json) (hne : k' ≠ k) :
    ∀ kw : List (String × Json),
      lookupField k (kw.map (fun p => if p.1 = k' then (k', v) else p)) =
        lookupField k kw := by
  intro kw
  induction kw with
  | nil => rfl
  | cons p rest ih =>
    obtain ⟨pk, pv⟩ := p
    by_cases hp : pk = k'
    · have hhead : (if ((pk, pv) : String × Json).1 = k' then ((k', v) : String × Json)
          else (pk, pv)) = (k', v) := by
        simp [hp]
      rw [List.map_cons, hhead, lookupField_cons, lookupField_cons,
        if_neg hne, if_neg (fun hc => hne (hp ▸ hc))]
      exact ih
    · have hhead : (if ((pk, pv) : String × Json).1 = k' then ((k', v) : String × Json)
          else (pk, pv)) = (pk, pv) := by
        simp [hp]
      rw [List.map_cons, hhead, lookupField_cons, lookupField_cons]
      by_cases hpk : pk = k
      · rw [if_pos hpk, if_pos hpk]
      · rw [if_neg hpk, if_neg hpk]
        exact ih

/-- Replacing the binding of a present key makes its lookup the new value. -/
theorem lookupField_replace_self (k : String) (v : Json) :
    ∀ kw : List (String × Json), kw.any (fun p => p.1 = k) = true →
      lookupField k (kw.map (fun p => if p.1 = k then (k, v) else p)) = some v := by
  intro kw
  induction kw with
  | nil => intro h; simp at h
  | cons p rest ih =>
    intro h
    obtain ⟨pk, pv⟩ := p
    by_cases hp : pk = k
    · have hhead : (if ((pk, pv) : String × Json).1 = k then ((k, v) : String × Json)
          else (pk, pv)) = (k, v) := by
        simp [hp]
      rw [List.map_cons, hhead, lookupField_cons, if_pos rfl]
    · have h' : rest.any (fun p => p.1 = k) = true := by
        simpa [List.any_cons, hp] using h
      have hhead : (if ((pk, pv) : String × Json).1 = k then ((k, v) : String × Json)
          else (pk, pv)) = (pk, pv) := by
        simp [hp]
      rw [List.map_cons, hhead, lookupField_cons, if_neg hp]
      exact ih h'

/-- A key on which `any` fails has no binding. -/
theorem lookupField_eq_none_of_any_false (k : String) :
    ∀ kw : List (String × Json), kw.any (fun p => p.1 = k) = false →
      lookupField k kw = none := by
  intro kw
  induction kw with
  | nil => intro _; rfl
  | cons p rest ih =>
    intro h
    obtain ⟨pk, pv⟩ := p
    simp only [List.any_cons, Bool.or_eq_false_iff, decide_eq_false_iff_not] at h
    simp [lookupField, h.1, ih h.2]

/-- Go map write semantics: after `addKw kw k v` the binding of `k` is `v`. -/
theorem lookupField_addKw_self (kw : List (String × Json)) (k : String) (v : Json) :
    lookupField k (addKw kw k v) = some v := by
  unfold addKw
  split
  · next h => exact lookupField_replace_self k v kw h
  · next h =>
    have hfalse : kw.any (fun p => p.1 = k) = false := by
      revert h
      cases kw.any (fun p => p.1 = k) <;> simp
    rw [lookupField_append, lookupField_eq_none_of_any_false k kw hfalse]
    simp [lookupField]

/-- Go map write semantics: `addKw` leaves other keys untouched. -/
theorem lookupField_addKw_ne (kw : List (String × Json)) (k k' : String) (v : Json)
    (hne : k' ≠ k) :
    lookupField k (addKw kw k' v) = lookupField k kw := by
  unfold addKw
  split
  · exact lookupField_replace_ne k k' v hne kw
  · rw [lookupField_append]
    cases h : lookupField k kw with
    | some w => rfl
    | none => simp [lookupField, hne]

/-- Folding a bulk map none of whose keys is `k` leaves the binding of `k`
unchanged. -/
theorem lookupField_addKwList_not_mem (k : String) :
    ∀ (m : List (String × Json)) (kw : List (String × Json)),
      (∀ p ∈ m, p.1 ≠ k) →
      lookupField k (addKwList kw m) = lookupField k kw := by
  intro m
  induction m with
  | nil => intro kw _; rfl
  | cons p rest ih =>
    intro kw h
    have hstep : addKwList kw (p :: rest) = addKwList (addKw kw p.1 p.2) rest := rfl
    rw [hstep, ih _ (fun q hq => h q (List.mem_cons_of_mem _ hq))]
    exact lookupField_addKw_ne kw k p.1 p.2 (h p (List.mem_cons_self _ _))

/-- Folding a bulk map with unique keys gives each of its bindings to the
result, whatever was accumulated before. -/
theorem lookupField_addKwList_of_lookup (k : String) (v : Json) :
    ∀ m : List (String × Json), (kwKeys m).Nodup → lookupField k m = some v →
      ∀ kw, lookupField k (addKwList kw m) = some v := by
  intro m
  induction m with
  | nil =>
    intro _ hm
    exact absurd hm (by simp [lookupField])
  | cons p rest ih =>
    intro hnd hm kw
    obtain ⟨pk, pv⟩ := p
    have hstep : addKwList kw ((pk, pv) :: rest) = addKwList (addKw kw pk pv) rest := rfl
    rw [hstep]
    have hcons : pk ∉ kwKeys rest ∧ (kwKeys rest).Nodup := by
      rw [show kwKeys ((pk, pv) :: rest) = pk :: kwKeys rest from rfl] at hnd
      exact List.nodup_cons.mp hnd
    by_cases hp : pk = k
    · have hv : pv = v := by
        rw [lookupField, if_pos hp] at hm
        exact Option.some.inj hm
      have hnotin : ∀ q ∈ rest, q.1 ≠ k := by
        intro q hq hqk
        apply hcons.1
        rw [hp, ← hqk]
        exact List.mem_map_of_mem Prod.fst hq
      rw [lookupField_addKwList_not_mem k rest _ hnotin]
      rw [hp, hv]
      exact lookupField_addKw_self kw k v
    · have hm' : lookupField k rest = some v := by
        rw [lookupField, if_neg hp] at hm
        exact hm
      exact ih hcons.2 hm' (addKw kw pk pv)

/-- When the written key is already present, `addKw` preserves the key
list. -/
theorem kwKeys_addKw_any_true (kw : List (String × Json)) (k : String) (v : Json)
    (h : kw.any (fun p => p.1 = k) = true) :
    kwKeys (addKw kw k v) = kwKeys kw := by
  unfold addKw
  rw [if_pos h]
  simp only [kwKeys, List.map_map]
  apply List.map_congr_left
  intro p _
  by_cases hp : p.1 = k
  · simp [hp]
  · simp [hp]

/-- `addKw` keeps the keys of a keyword mapping unique. -/
theorem nodup_kwKeys_addKw (kw : List (String × Json)) (k : String) (v : Json)
    (h : (kwKeys kw).Nodup) : (kwKeys (addKw kw k v)).Nodup := by
  by_cases hany : kw.any (fun p => p.1 = k) = true
  · rw [kwKeys_addKw_any_true kw k v hany]
    exact h
  · have hfalse : kw.any (fun p => p.1 = k) = false := by
      revert hany
      cases kw.any (fun p => p.1 = k) <;> simp
    have hall := List.any_eq_false.mp hfalse
    have hk : k ∉ kwKeys kw := by
      intro hmem
      simp only [kwKeys, List.mem_map] at hmem
      obtain ⟨p, hp, hpk⟩ := hmem
      have hq := hall p hp
      simp only [decide_eq_true_eq] at hq
      exact hq hpk
    unfold addKw
    rw [if_neg (by simp [hfalse])]
    simp only [kwKeys, List.map_append, List.map_cons, List.map_nil]
    rw [List.nodup_append]
    refine ⟨h, List.nodup_singleton k, ?_⟩
    intro a ha hb
    rw [List.mem_singleton.mp hb] at ha
    exact hk ha

/-- Folding a whole bulk map keeps the keys unique. -/
theorem nodup_kwKeys_addKwList :
    ∀ (m : List (String × Json)) (kw : List (String × Json)),
      (kwKeys kw).Nodup → (kwKeys (addKwList kw m)).Nodup := by
  intro m
  induction m with
  | nil => intro kw h; exact h
  | cons p rest ih =>
    intro kw h
    exact ih (addKw kw p.1 p.2) (nodup_kwKeys_addKw kw p.1 p.2 h)

/-- Invariant of the payload builder: the keyword-argument keys of every
successfully built `RunInput` are unique. -/
theorem coerceGo_nodup_kwKeys :
    ∀ (ts : List ArgToken) (st : RunInput), (kwKeys st.inputKwargs).Nodup →
      ∀ inp, coerceGo st ts = .ok inp → (kwKeys inp.inputKwargs).Nodup := by
  intro ts
  induction ts with
  | nil =>
    intro st h inp hok
    injection hok with h2
    rw [← h2]
    exact h
  | cons t rest ih =>
    intro st h inp hok
    cases t with
    | arg v =>
      have hok' : coerceGo { st with inputArgs := st.inputArgs ++ [v] } rest = .ok inp := hok
      exact ih { st with inputArgs := st.inputArgs ++ [v] } h inp hok'
    | args vs =>
      have hok' : coerceGo { st with inputArgs := st.inputArgs ++ vs } rest = .ok inp := hok
      exact ih { st with inputArgs := st.inputArgs ++ vs } h inp hok'
    | kw k v =>
      have hok' : coerceGo { st with inputKwargs := addKw st.inputKwargs k v } rest = .ok inp := hok
      exact ih _ (nodup_kwKeys_addKw st.inputKwargs k v h) inp hok'
    | kws m =>
      have hok' : coerceGo { st with inputKwargs := addKwList st.inputKwargs m } rest = .ok inp := hok
      exact ih _ (nodup_kwKeys_addKwList m st.inputKwargs h) inp hok'
    | rawMap m =>
      have hok' : coerceGo { st with inputKwargs := addKwList st.inputKwargs m } rest = .ok inp := hok
      exact ih _ (nodup_kwKeys_addKwList m st.inputKwargs h) inp hok'
    | structVal m =>
      have hok' : coerceGo { st with inputKwargs := addKwList st.inputKwargs m } rest = .ok inp := hok
      exact ih _ (nodup_kwKeys_addKwList m st.inputKwargs h) inp hok'
    | bareSliceAny vs => exact Except.noConfusion hok
    | prim v =>
      have hok' : coerceGo { st with inputArgs := st.inputArgs ++ [v] } rest = .ok inp := hok
      exact ih { st with inputArgs := st.inputArgs ++ [v] } h inp hok'

/-- The token loop processes an appended token list sequentially. -/
theorem coerceGo_append (l1 : List ArgToken) :
    ∀ (st : RunInput) (l2 : List ArgToken),
      coerceGo st (l1 ++ l2) =
        match coerceGo st l1 with
        | .ok st' => coerceGo st' l2
        | .error e => .error e := by
  induction l1 with
  | nil => intro st l2; rfl
  | cons t rest ih =>
    intro st l2
    show (match coerceStep st t with
          | .ok st' => coerceGo st' (rest ++ l2)
          | .error e => .error e) =
        (match (match coerceStep st t with
                | .ok st' => coerceGo st' rest
                | .error e => .error e) with
         | .ok st' => coerceGo st' l2
         | .error e => .error e)
    cases coerceStep st t with
    | ok st' => exact ih st' l2
    | error e => rfl

/-- C8: when two bulk-named tokens with a colliding key are passed to the
payload builder (after any prefix of other tokens), the later token wins:
the built `RunInput` binds the key to the later value, and the keys of its
`namedArgs` stay unique. -/
theorem coerce_last_bulk_named_token_wins (ts : List ArgToken)
    (m1 m2 : List (String × Json)) (k : String) (v : Json) (inp : RunInput)
    (hnd : (kwKeys m2).Nodup) (hm : lookupField k m2 = some v)
    (hok : coerceToRunInput (ts ++ [ArgToken.kws m1, ArgToken.kws m2]) = .ok inp) :
    lookupField k inp.inputKwargs = some v ∧ (kwKeys inp.inputKwargs).Nodup := by
  have hnodup := coerceGo_nodup_kwKeys (ts ++ [ArgToken.kws m1, ArgToken.kws m2]) {}
    (by simp [kwKeys]) inp hok
  refine ⟨?_, hnodup⟩
  unfold coerceToRunInput at hok
  rw [coerceGo_append] at hok
  cases hst : coerceGo {} ts with
  | error e =>
    rw [hst] at hok
    exact Except.noConfusion hok
  | ok st =>
    rw [hst] at hok
    have hok2 :
        Except.ok (ε := RunAgentError)
          { st with inputKwargs := addKwList (addKwList st.inputKwargs m1) m2 } =
          Except.ok inp := hok
    injection hok2 with h2
    rw [← h2]
    exact lookupField_addKwList_of_lookup k v m2 hnd hm (addKwList st.inputKwargs m1)

/-- Witness for C8: `Kws({"m":1})` followed by `Kws({"m":2})` builds
`namedArgs` binding `m` to `2` with unique keys. -/
theorem coerce_last_bulk_named_token_wins_witness :
    ∃ inp,
      coerceToRunInput [ArgToken.kws [("m", Json.num 1)], ArgToken.kws [("m", Json.num 2)]] =
        .ok inp ∧
      lookupField "m" inp.inputKwargs = some (Json.num 2) ∧
      (kwKeys inp.inputKwargs).Nodup := by
  refine ⟨{ inputArgs := [], inputKwargs := [("m", Json.num 2)] }, rfl, ?_⟩
  exact coerce_last_bulk_named_token_wins [] [("m", Json.num 1)] [("m", Json.num 2)]
    "m" (Json.num 2) _ (by decide) rfl rfl

/-! ### Lemmas for the iterator invariant claim -/

/-- Every outcome of the read loop other than a yielded chunk leaves the
iterator closed: all terminal paths run `closeIter` on the way out. -/
theorem nextFromBuffer_closes_unless_chunk (ctxDone : Bool) :
    ∀ (buf : List String) (closes : Nat),
      (nextFromBuffer ctxDone buf closes).2.closed = true ∨
      ∃ v, (nextFromBuffer ctxDone buf closes).1 = NextOutcome.chunk v := by
  intro buf
  induction buf with
  | nil =>
    intro closes
    left
    cases ctxDone <;> simp [nextFromBuffer, closeIter]
  | cons msg rest ih =>
    intro closes
    cases ctxDone with
    | true =>
      left
      simp [nextFromBuffer, closeIter]
    | false =>
      cases hp : parseStreamFrame msg with
      | none =>
        left
        simp [nextFromBuffer, hp, closeIter]
      | some frame =>
        simp only [nextFromBuffer, hp, Bool.false_eq_true, if_false]
        split_ifs with h1 h2 h3
        · left; rfl
        · left; rfl
        · left; rfl
        · split
          · split
            · exact ih closes
            · left; rfl
            · left; rfl
            · left; rfl
            · left; rfl
            · left; rfl
            · exact ih closes
          · left; rfl
          · split
            · left; rfl
            · right; exact ⟨_, rfl⟩
          · split
            · left; rfl
            · right; exact ⟨_, rfl⟩

/-- C10: the closed state of the iterator is absorbing — once any terminal
path has closed it, every further `Next` returns the Go triple
`(nil, false, nil)` without touching the connection (so an earlier error is
never replayed), a second `Close` returns nil without closing the
connection again, and every non-chunk outcome of `Next` leaves the iterator
closed. -/
theorem iterator_closed_absorbing_and_terminal_close (ctxDone : Bool) (s : IterState) :
    (s.closed = true → next ctxDone s = (.finished, s) ∧ closeIter s = (none, s)) ∧
    ((∀ v, (next ctxDone s).1 ≠ NextOutcome.chunk v) → (next ctxDone s).2.closed = true) := by
  constructor
  · intro h
    exact ⟨by simp [next, h], by simp [closeIter, h]⟩
  · intro hnc
    by_cases h : s.closed = true
    · simp [next, h]
    · have hn : next ctxDone s = nextFromBuffer ctxDone s.buffer s.connCloseCount := by
        simp [next, h]
      rw [hn] at hnc ⊢
      rcases nextFromBuffer_closes_unless_chunk ctxDone s.buffer s.connCloseCount with hcl | ⟨v, hv⟩
      · exact hcl
      · exact absurd hv (hnc v)

/-- Witness for C10 at a closed iterator and at a completing stream. -/
theorem iterator_closed_absorbing_and_terminal_close_witness :
    next true ⟨true, [frameDataA], 3⟩ = (.finished, ⟨true, [frameDataA], 3⟩) ∧
    closeIter ⟨true, [frameDataA], 3⟩ = (none, ⟨true, [frameDataA], 3⟩) ∧
    (next false ⟨false, [frameStreamCompleted], 0⟩).2.closed = true :=
  ⟨((iterator_closed_absorbing_and_terminal_close true ⟨true, [frameDataA], 3⟩).1 rfl).1,
   ((iterator_closed_absorbing_and_terminal_close true ⟨true, [frameDataA], 3⟩).1 rfl).2,
   (iterator_closed_absorbing_and_terminal_close false ⟨false, [frameStreamCompleted], 0⟩).2
     (fun _ h => nomatch h)⟩

end RunAgent
